import Mathlib

/-!
# Verification of the kancli board interaction controller

Shallow embedding of the kanban TUI's data model, persistence gateway and
interaction controller, together with proofs about the behaviours the
specification describes.

The repository holds one authoritative controller file (`main.go`, the
board-projection variant whose `handleNormal`/`handleInsert` mutate the
in-memory `Board` and then resync the per-column rendering lists) and two
earlier controller variants (in `part_000`) that mutate the rendering
lists directly; the first of those variants additionally supports editing
an existing task.  Both the authoritative controller and the first
`part_000` variant are embedded below (`handleNormal`/`handleInsert`
versus the `PartZero` namespace).

Go `int64`/`int` values are modelled as `Int` (identifiers are assigned
sequentially from a counter, so overflow never matters), focus indices as
`Nat` (all decrements are guarded by positivity checks in the source).
Timestamp fields (`CreatedAt`/`UpdatedAt`, `DueDate`) are managed by the
persistence gateway via `time.Now()` and are dropped from the embedding;
no claim depends on them.  A Go slice index that can be out of range
(a runtime panic) is modelled by an `Option` result: `none` marks the
panic.  Fallible persistence calls are modelled by a boolean oracle `ok`
passed to each handler: `ok = true` means the call succeeds.
-/

set_option linter.unusedVariables false

namespace Kancli

/-- `models.Task` (timestamp fields dropped, see the header comment). -/
structure Task where
  id : Int
  boardId : Int
  statusColumnId : Int
  title : String
  description : String
  position : Int
  priority : Int
  assignee : String
  tags : String
  deriving Repr, DecidableEq

/-- `models.StatusColumn`. -/
structure StatusColumn where
  id : Int
  boardId : Int
  name : String
  position : Int
  color : String
  deriving Repr, DecidableEq

/-- `models.Board` (timestamp fields dropped). -/
structure Board where
  id : Int
  title : String
  description : String
  columns : List StatusColumn
  tasks : List Task
  deriving Repr, DecidableEq

/-- `models.NewTask`: title/description as given, position 0, priority 1
(low); the remaining fields keep Go zero values. -/
def NewTask (title description : String) : Task :=
  { id := 0, boardId := 0, statusColumnId := 0, title := title,
    description := description, position := 0, priority := 1,
    assignee := "", tags := "" }

/-- `Board.GetTasksByColumn`: filter the board's task collection by
column identifier, preserving order. -/
def Board.GetTasksByColumn (b : Board) (columnId : Int) : List Task :=
  b.tasks.filter (fun t => t.statusColumnId == columnId)

/-- Modelled from the spec: `Board.AddTask` is called by `main.go` but its
definition is not under `src/`.  Spec section 4.1: "`addTask(task)`: appends
to the Board's task collection." -/
def Board.AddTask (b : Board) (t : Task) : Board :=
  { b with tasks := b.tasks ++ [t] }

/-- Modelled from the spec: `Board.UpdateTask` is called by `main.go` but its
definition is not under `src/`.  Spec section 4.1: "`updateTask(task)`:
replaces the task with matching identifier in place.  Fails silently (no-op)
if identifier not found." -/
def Board.UpdateTask (b : Board) (t : Task) : Board :=
  { b with tasks := b.tasks.map (fun u => if u.id == t.id then t else u) }

/-- Modelled from the spec: `Board.RemoveTask` is called by `main.go` but its
definition is not under `src/`.  Spec section 4.1: "`removeTask(id)`: removes
the task with matching identifier." -/
def Board.RemoveTask (b : Board) (id : Int) : Board :=
  { b with tasks := b.tasks.filter (fun u => u.id != id) }

/-- The persistence gateway's task table: stored rows plus the
auto-increment counter used by `LastInsertId`. -/
structure TaskStore where
  rows : List Task
  nextId : Int
  deriving Repr, DecidableEq

/-- `TaskRepository.Create`: INSERT the row, assign the auto-increment
identifier to the task (the caller sees the assigned id). -/
def TaskStore.create (s : TaskStore) (t : Task) : Task × TaskStore :=
  let t1 := { t with id := s.nextId }
  (t1, { rows := s.rows ++ [t1], nextId := s.nextId + 1 })

/-- `TaskRepository.Update`: `UPDATE tasks SET status_column_id = ?,
title = ?, description = ?, position = ?, priority = ?, due_date = ?,
assignee = ?, tags = ?, updated_at = ? WHERE id = ?`.  The row keeps its
`id` and `board_id`; matching no row is a silent no-op. -/
def TaskRepository.Update (rows : List Task) (t : Task) : List Task :=
  rows.map (fun r =>
    if r.id == t.id then
      { r with statusColumnId := t.statusColumnId, title := t.title,
               description := t.description, position := t.position,
               priority := t.priority, assignee := t.assignee,
               tags := t.tags }
    else r)

/-- `TaskRepository.Delete`: `DELETE FROM tasks WHERE id = ?`. -/
def TaskRepository.Delete (rows : List Task) (id : Int) : List Task :=
  rows.filter (fun r => r.id != id)

/-- Controller mode (`Normal`/`Insert` in `main.go`). -/
inductive Mode where
  | Normal
  | Insert
  deriving Repr, DecidableEq

/-- One column's rendering adapter (`bubbles list.Model`) as far as the
controller observes it: the ordered item list, the selection cursor, and
whether the list is in filter-text-entry state (`SettingFilter`). -/
structure ColumnUI where
  items : List Task
  cursor : Nat
  settingFilter : Bool
  deriving Repr, DecidableEq

/-- The `main.go` `Model`: board projection, derived column views, focus,
mode, error flag (`m.err != nil`), and the input-pane field values. -/
structure Model where
  board : Board
  columns : List ColumnUI
  focused : Nat
  mode : Mode
  errSet : Bool
  inputTitle : String
  inputDesc : String
  inputFocused : Nat
  deriving Repr, DecidableEq

/-- `main.go` `getSelectedTask`: the selected item of the focused column,
if any (bounds failures yield `none`, as in the source). -/
def Model.getSelectedTask (m : Model) : Option Task :=
  match m.columns[m.focused]? with
  | none => none
  | some cu => cu.items[cu.cursor]?

/-- The loop body of `main.go` `syncColumnData`: walk `board.Columns` and
the UI columns in parallel; each UI column with a corresponding board
column gets its items re-derived from the board; surplus UI columns are
left untouched (surplus board columns have no UI column to update). -/
def syncColsAux (b : Board) : List StatusColumn → List ColumnUI → List ColumnUI
  | _, [] => []
  | [], cus => cus
  | sc :: scs, cu :: cus =>
      { cu with items := b.GetTasksByColumn sc.id } :: syncColsAux b scs cus

/-- `main.go` `syncColumnData`: update the UI lists to match board data. -/
def Model.syncColumnData (m : Model) : Model :=
  { m with columns := syncColsAux m.board m.board.columns m.columns }

/-- Normal-mode keystrokes as `main.go` `handleNormal` dispatches them. -/
inductive Key where
  | quit
  | focusLeft
  | focusRight
  | moveLeft
  | moveRight
  | del
  | beginCreate
  | other
  deriving Repr, DecidableEq

/-- `main.go` `handleNormal`.  `adapter` stands for the rendering
collaborator's own `Update` (the `handleListInput` forward); `ok` is the
outcome of the persistence call made in the branch (if any); `none` marks
a Go slice-index panic. -/
def handleNormal (adapter : ColumnUI → ColumnUI) (k : Key) (ok : Bool)
    (m : Model) (s : TaskStore) : Option (Model × TaskStore) :=
  match k with
  | Key.quit => some (m, s)
  | Key.focusLeft =>
      if 0 < m.focused then some ({ m with focused := m.focused - 1 }, s)
      else some (m, s)
  | Key.focusRight =>
      if m.focused + 1 < m.columns.length then
        some ({ m with focused := m.focused + 1 }, s)
      else some (m, s)
  | Key.moveLeft =>
      if 0 < m.focused then
        match m.getSelectedTask with
        | some task =>
            match m.board.columns[m.focused - 1]? with
            | none => none
            | some leftCol =>
                let task1 := { task with statusColumnId := leftCol.id }
                match ok with
                | true =>
                  let m1 := Model.syncColumnData
                    { m with board := m.board.UpdateTask task1 }
                  some ({ m1 with focused := m1.focused + 1 },
                        { s with rows := TaskRepository.Update s.rows task1 })
                | false =>
                  match m.board.columns[m.focused]? with
                  | none => none
                  | some _ => some ({ m with errSet := true }, s)
        | none => some (m, s)
      else some (m, s)
  | Key.moveRight =>
      if m.focused + 1 < m.columns.length then
        match m.getSelectedTask with
        | some task =>
            match m.board.columns[m.focused + 1]? with
            | none => none
            | some rightCol =>
                let task1 := { task with statusColumnId := rightCol.id }
                match ok with
                | true =>
                  let m1 := Model.syncColumnData
                    { m with board := m.board.UpdateTask task1 }
                  some ({ m1 with focused := m1.focused + 1 },
                        { s with rows := TaskRepository.Update s.rows task1 })
                | false =>
                  match m.board.columns[m.focused]? with
                  | none => none
                  | some _ => some ({ m with errSet := true }, s)
        | none => some (m, s)
      else some (m, s)
  | Key.del =>
      match m.getSelectedTask with
      | some task =>
          match ok with
          | true =>
            let m1 := Model.syncColumnData
              { m with board := m.board.RemoveTask task.id }
            some (m1, { s with rows := TaskRepository.Delete s.rows task.id })
          | false => some ({ m with errSet := true }, s)
      | none => some (m, s)
  | Key.beginCreate =>
      match m.columns[m.focused]? with
      | none => none
      | some cu =>
          if !cu.settingFilter then
            some ({ m with mode := Mode.Insert, inputFocused := 0 }, s)
          else some ({ m with columns := m.columns.set m.focused (adapter cu) }, s)
  | Key.other =>
      match m.columns[m.focused]? with
      | none => none
      | some cu =>
          some ({ m with columns := m.columns.set m.focused (adapter cu) }, s)

/-- `main.go` `createTask`: error when no columns exist; otherwise bind
the new task to the focused column (first column when the focus index is
out of bounds), create it in the store, then add it to the board
projection and resync the views.  The returned `Bool` is `true` when the
function returned an error. -/
def Model.createTask (ok : Bool) (title description : String)
    (m : Model) (s : TaskStore) : Bool × Model × TaskStore :=
  match m.board.columns with
  | [] => (true, m, s)
  | c0 :: _ =>
      let columnId := ((m.board.columns[m.focused]?).getD c0).id
      let task := { NewTask title description with
                      boardId := m.board.id, statusColumnId := columnId }
      match ok with
      | true =>
        let (task1, s1) := s.create task
        let m1 := Model.syncColumnData
          { m with board := m.board.AddTask task1 }
        (false, m1, s1)
      | false => (true, m, s)

/-- Insert-mode keystrokes as `main.go` `handleInsert` dispatches them. -/
inductive InsertKey where
  | quit
  | esc
  | tab
  | enter
  | other
  deriving Repr, DecidableEq

/-- `main.go` `handleInsert`.  `edit` stands for the focused text field's
own `Update`; `ok` is the outcome of the persistence call made on
submission (if any). -/
def handleInsert (edit : String → String) (k : InsertKey) (ok : Bool)
    (m : Model) (s : TaskStore) : Model × TaskStore :=
  match k with
  | InsertKey.quit => (m, s)
  | InsertKey.esc => ({ m with mode := Mode.Normal }, s)
  | InsertKey.tab =>
      ({ m with inputFocused := if m.inputFocused == 0 then 1 else 0 }, s)
  | InsertKey.enter =>
      if m.inputTitle ≠ "" then
        match m.createTask ok m.inputTitle m.inputDesc s with
        | (true, m1, s1) => ({ m1 with errSet := true }, s1)
        | (false, m1, s1) =>
            ({ m1 with inputTitle := "", inputDesc := "",
                       inputFocused := 0, mode := Mode.Normal }, s1)
      else (m, s)
  | InsertKey.other =>
      (if m.inputFocused == 0 then { m with inputTitle := edit m.inputTitle }
       else { m with inputDesc := edit m.inputDesc }, s)

/-! ## Bootstrap (`loadBoard`)

The persistence gateway's board/column tables, as `main.go` `loadBoard`
uses them through `BoardRepository` and `StatusColumnRepository`. -/

/-- The store behind the board and column repositories (plus the task
table, which `BoardRepository.GetById` reads). -/
structure AppDB where
  boardRows : List Board
  colRows : List StatusColumn
  taskRows : List Task
  nextBoardId : Int
  nextColId : Int
  deriving Repr, DecidableEq

/-- `BoardRepository.Create`: INSERT the board's metadata row and assign
the auto-increment identifier (the row itself stores no columns/tasks). -/
def AppDB.createBoard (db : AppDB) (b : Board) : Board × AppDB :=
  let b1 := { b with id := db.nextBoardId }
  (b1, { db with boardRows := db.boardRows ++ [{ b1 with columns := [], tasks := [] }],
                 nextBoardId := db.nextBoardId + 1 })

/-- `StatusColumnRepository.Create`: INSERT the column row and assign the
auto-increment identifier. -/
def AppDB.createColumn (db : AppDB) (c : StatusColumn) : StatusColumn × AppDB :=
  let c1 := { c with id := db.nextColId }
  (c1, { db with colRows := db.colRows ++ [c1], nextColId := db.nextColId + 1 })

/-- Insertion step for `ORDER BY position`. -/
def insertByPos (c : StatusColumn) : List StatusColumn → List StatusColumn
  | [] => [c]
  | d :: ds =>
      if c.position ≤ d.position then c :: d :: ds else d :: insertByPos c ds

/-- `StatusColumnRepository.GetByBoardId`: `SELECT ... WHERE board_id = ?
ORDER BY position`. -/
def AppDB.GetColumnsByBoardId (db : AppDB) (boardId : Int) : List StatusColumn :=
  (db.colRows.filter (fun c => c.boardId == boardId)).foldr insertByPos []

/-- Insertion step for `ORDER BY status_column_id, position`. -/
def insertByColPos (t : Task) : List Task → List Task
  | [] => [t]
  | u :: us =>
      if t.statusColumnId < u.statusColumnId ∨
         (t.statusColumnId = u.statusColumnId ∧ t.position ≤ u.position) then
        t :: u :: us
      else u :: insertByColPos t us

/-- `TaskRepository.GetByBoardId`: `SELECT ... WHERE board_id = ?
ORDER BY status_column_id, position`. -/
def AppDB.GetTasksByBoardId (db : AppDB) (boardId : Int) : List Task :=
  (db.taskRows.filter (fun t => t.boardId == boardId)).foldr insertByColPos []

/-- `BoardRepository.GetAll`: board metadata rows, `ORDER BY created_at
DESC` (rows are stored in creation order, so recency order reverses). -/
def AppDB.getAllBoards (db : AppDB) : List Board :=
  db.boardRows.reverse

/-- `BoardRepository.GetById`: the board row together with its columns
(ordered by position) and tasks. -/
def AppDB.getBoardById (db : AppDB) (id : Int) : Option Board :=
  (db.boardRows.find? (fun b => b.id == id)).map (fun b =>
    { b with columns := db.GetColumnsByBoardId id,
             tasks := db.GetTasksByBoardId id })

/-- The Go zero `models.Board` (what `m.board` holds when `loadBoard`
fails before assigning it). -/
def zeroBoard : Board :=
  { id := 0, title := "", description := "", columns := [], tasks := [] }

/-- The default board value `main.go` `loadBoard` constructs before its
first save. -/
def defaultBoardSeed : Board :=
  { zeroBoard with title := "My Kanban Board", description := "Default board" }

/-- `main.go` `loadBoard`: with no existing boards, create the default
board and the three default columns in the store and take the created
board value as the session board — note that its `Columns` field is never
populated on this path.  With existing boards, load the most recent one
(columns and tasks included). -/
def loadBoard (db : AppDB) : Board × AppDB :=
  match db.getAllBoards with
  | [] =>
      let (b1, db1) := db.createBoard defaultBoardSeed
      let cols : List StatusColumn :=
        [ { id := 0, boardId := b1.id, name := "To Do", position := 0,
            color := "#ff6b6b" },
          { id := 0, boardId := b1.id, name := "In Progress", position := 1,
            color := "#4ecdc4" },
          { id := 0, boardId := b1.id, name := "Done", position := 2,
            color := "#45b7d1" } ]
      let db2 := cols.foldl (fun d c => (d.createColumn c).2) db1
      (b1, db2)
  | b0 :: _ =>
      match db.getBoardById b0.id with
      | some b => (b, db)
      | none => (zeroBoard, db)

/-! ## The first `part_000` controller variant

This variant supports editing an existing task (`e` key / `editContext =
editing`): its `inputPane` carries `taskId` (`-1` = creating) and
`listIndex`, and its `handleInsert` dispatches on them.  It mutates the
rendering lists directly (`InsertItem`/`SetItem`) instead of the board
projection. -/

namespace PartZero

/-- The `part_000` (first variant) `Model`: like the `main.go` one plus
the `inputPane.taskId` / `inputPane.listIndex` edit context. -/
structure PModel where
  board : Board
  columns : List ColumnUI
  focused : Nat
  mode : Mode
  errSet : Bool
  inputTitle : String
  inputDesc : String
  inputFocused : Nat
  ipTaskId : Int
  ipListIndex : Int
  deriving Repr, DecidableEq

/-- `part_000` `getSelectedTask` (same logic as `main.go`). -/
def PModel.getSelectedTask (m : PModel) : Option Task :=
  match m.columns[m.focused]? with
  | none => none
  | some cu => cu.items[cu.cursor]?

/-- `bubbles list.Model.SetItem(index, item)`: replace the item at the
index; an out-of-range index is a Go panic (`none`). -/
def setItemUI (cu : ColumnUI) (idx : Int) (t : Task) : Option ColumnUI :=
  if 0 ≤ idx ∧ idx.toNat < cu.items.length then
    some { cu with items := cu.items.set idx.toNat t }
  else none

/-- `part_000` `updateTask`: take the selected task, overwrite its title
and description, call the persistence update; on success replace the item
at `inputPane.listIndex` in the focused rendering list and clear
`listIndex`; on failure reassign the (dead) local copy's column and
return the error.  The returned `Bool` is `true` when an error was
returned; `none` marks a Go slice-index panic. -/
def PModel.updateTask (ok : Bool) (title description : String)
    (m : PModel) (s : TaskStore) : Option (Bool × PModel × TaskStore) :=
  match m.getSelectedTask with
  | none => some (false, m, s)
  | some task =>
      let task1 := { task with title := title, description := description }
      match ok with
      | true =>
        match m.columns[m.focused]? with
        | none => none
        | some cu =>
            match setItemUI cu m.ipListIndex task1 with
            | none => none
            | some cu1 =>
                some (false,
                      { m with columns := m.columns.set m.focused cu1,
                               ipListIndex := -1 },
                      { s with rows := TaskRepository.Update s.rows task1 })
      | false =>
        match m.board.columns[m.focused]? with
        | none => none
        | some _ => some (true, m, s)

/-- `part_000` `createTask`: like the `main.go` one except the new task is
prepended to the focused rendering list only (`InsertItem(0, task)`), the
board projection is not updated; indexing `m.columns[m.focused]` can
panic. -/
def PModel.createTask (ok : Bool) (title description : String)
    (m : PModel) (s : TaskStore) : Option (Bool × PModel × TaskStore) :=
  match m.board.columns with
  | [] => some (true, m, s)
  | c0 :: _ =>
      let columnId := ((m.board.columns[m.focused]?).getD c0).id
      let task := { NewTask title description with
                      boardId := m.board.id, statusColumnId := columnId }
      match ok with
      | true =>
        let (task1, s1) := s.create task
        match m.columns[m.focused]? with
        | none => none
        | some cu =>
            some (false,
                  { m with columns :=
                      m.columns.set m.focused { cu with items := task1 :: cu.items } },
                  s1)
      | false => some (true, m, s)

/-- `part_000` (first variant) `handleInsert`: on `enter`, dispatch on the
edit context (`taskId != -1` means editing); afterwards, only when no
error was returned, clear the fields and return to Normal mode — on an
error, set the error flag and stay put. -/
def handleInsertP (edit : String → String) (k : InsertKey) (ok : Bool)
    (m : PModel) (s : TaskStore) : Option (PModel × TaskStore) :=
  match k with
  | InsertKey.quit => some (m, s)
  | InsertKey.esc => some ({ m with mode := Mode.Normal }, s)
  | InsertKey.tab =>
      some ({ m with inputFocused := if m.inputFocused == 0 then 1 else 0 }, s)
  | InsertKey.enter =>
      let step : Option (Bool × PModel × TaskStore) :=
        if m.ipTaskId ≠ -1 then m.updateTask ok m.inputTitle m.inputDesc s
        else if m.inputTitle ≠ "" then m.createTask ok m.inputTitle m.inputDesc s
        else some (false, m, s)
      match step with
      | none => none
      | some (failed, m1, s1) =>
          if failed then some ({ m1 with errSet := true }, s1)
          else some ({ m1 with inputTitle := "", inputDesc := "",
                               inputFocused := 0, mode := Mode.Normal }, s1)
  | InsertKey.other =>
      some (if m.inputFocused == 0 then { m with inputTitle := edit m.inputTitle }
            else { m with inputDesc := edit m.inputDesc }, s)

end PartZero

/-! ## Task-to-column mappings and replay refinement (claim C1) -/

/-- The task-to-column mapping of a task collection: which column
identifier the task with the given identifier carries, if present. -/
def taskColumnMap (tasks : List Task) (tid : Int) : Option Int :=
  (tasks.find? (fun t => t.id == tid)).map (fun t => t.statusColumnId)

/-- The Board Projection's task-to-column mapping agrees with the
persistence store's. -/
def mapsAgree (m : Model) (s : TaskStore) : Prop :=
  ∀ tid, taskColumnMap m.board.tasks tid = taskColumnMap s.rows tid

lemma taskColumnMap_nil (tid : Int) : taskColumnMap [] tid = none := rfl

lemma taskColumnMap_cons (u : Task) (us : List Task) (tid : Int) :
    taskColumnMap (u :: us) tid =
      if u.id = tid then some u.statusColumnId else taskColumnMap us tid := by
  by_cases h : u.id = tid
  · simp [taskColumnMap, List.find?_cons_of_pos, h]
  · simp [taskColumnMap, List.find?_cons_of_neg, h]

/-- Effect of the Board Projection's `UpdateTask` on the mapping. -/
lemma taskColumnMap_update_board (l : List Task) (t : Task) (tid : Int) :
    taskColumnMap (l.map (fun u => if u.id == t.id then t else u)) tid =
      if tid = t.id then (taskColumnMap l tid).map (fun _ => t.statusColumnId)
      else taskColumnMap l tid := by
  induction l with
  | nil => by_cases h : tid = t.id <;> simp [taskColumnMap, h]
  | cons u us ih =>
      simp only [beq_iff_eq] at ih
      simp only [List.map_cons]
      by_cases h1 : u.id = t.id
      · by_cases h2 : tid = t.id
        · simp [taskColumnMap_cons, h1, h2]
        · have h3 : ¬ t.id = tid := fun hc => h2 hc.symm
          have h4 : ¬ u.id = tid := fun hc => h3 (h1 ▸ hc)
          simp [taskColumnMap_cons, h1, h2, h3, h4, ih]
      · by_cases hu : u.id = tid
        · have h2 : ¬ tid = t.id := fun hc => h1 (hu.trans hc)
          simp [taskColumnMap_cons, h1, hu, h2]
        · simp [taskColumnMap_cons, h1, hu, ih]

/-- Effect of the gateway's `TaskRepository.Update` on the mapping. -/
lemma taskColumnMap_update_store (l : List Task) (t : Task) (tid : Int) :
    taskColumnMap (TaskRepository.Update l t) tid =
      if tid = t.id then (taskColumnMap l tid).map (fun _ => t.statusColumnId)
      else taskColumnMap l tid := by
  induction l with
  | nil => by_cases h : tid = t.id <;> simp [taskColumnMap, TaskRepository.Update, h]
  | cons u us ih =>
      simp only [TaskRepository.Update, List.map_cons] at ih ⊢
      simp only [beq_iff_eq] at ih
      by_cases h1 : u.id = t.id
      · by_cases h2 : tid = t.id
        · simp [taskColumnMap_cons, h1, h2]
        · have h3 : ¬ t.id = tid := fun hc => h2 hc.symm
          have h4 : ¬ u.id = tid := fun hc => h3 (h1 ▸ hc)
          simp [taskColumnMap_cons, h1, h2, h3, h4, ih]
      · by_cases hu : u.id = tid
        · have h2 : ¬ tid = t.id := fun hc => h1 (hu.trans hc)
          simp [taskColumnMap_cons, h1, hu, h2]
        · simp [taskColumnMap_cons, h1, hu, ih]

/-- A paired projection/store update with the same candidate task keeps
the two mappings in agreement. -/
lemma taskColumnMap_update_pair (bt rows : List Task) (t : Task)
    (h : ∀ x, taskColumnMap bt x = taskColumnMap rows x) (tid : Int) :
    taskColumnMap (bt.map (fun u => if u.id == t.id then t else u)) tid
      = taskColumnMap (TaskRepository.Update rows t) tid := by
  rw [taskColumnMap_update_board, taskColumnMap_update_store, h tid]

/-- After a paired projection/store update (whatever the new focus index
and the resynced views), the two task-to-column mappings still agree. -/
lemma mapsAgree_move_post (m : Model) (s : TaskStore) (task1 : Task) (n : Nat)
    (h : mapsAgree m s) :
    mapsAgree
      { Model.syncColumnData { m with board := m.board.UpdateTask task1 } with
          focused := n }
      { s with rows := TaskRepository.Update s.rows task1 } := by
  intro tid
  simpa [Model.syncColumnData, Board.UpdateTask] using
    taskColumnMap_update_pair m.board.tasks s.rows task1 h tid

/-- One Normal-mode move keystroke with a successful persistence call
keeps the Board Projection's mapping in agreement with the store's. -/
lemma handleNormal_move_agree (adapter : ColumnUI → ColumnUI) (k : Key)
    (m : Model) (s : TaskStore) (m' : Model) (s' : TaskStore)
    (hk : k = Key.moveLeft ∨ k = Key.moveRight)
    (hstep : handleNormal adapter k true m s = some (m', s'))
    (h : mapsAgree m s) : mapsAgree m' s' := by
  have stay : (m, s) = (m', s') → mapsAgree m' s' := by
    intro e
    rw [Prod.mk.injEq] at e
    exact e.1 ▸ e.2 ▸ h
  rcases hk with hk | hk <;> subst hk <;>
    simp only [handleNormal] at hstep
  · split at hstep
    case isTrue =>
      cases hsel : m.getSelectedTask with
      | none =>
          rw [hsel] at hstep
          exact stay (Option.some.inj hstep)
      | some task =>
          rw [hsel] at hstep
          cases hcol : m.board.columns[m.focused - 1]? with
          | none => rw [hcol] at hstep; exact absurd hstep (by simp)
          | some leftCol =>
              rw [hcol] at hstep
              have e := Option.some.inj hstep
              rw [Prod.mk.injEq] at e
              exact e.1 ▸ e.2 ▸ mapsAgree_move_post m s _ _ h
    case isFalse => exact stay (Option.some.inj hstep)
  · split at hstep
    case isTrue =>
      cases hsel : m.getSelectedTask with
      | none =>
          rw [hsel] at hstep
          exact stay (Option.some.inj hstep)
      | some task =>
          rw [hsel] at hstep
          cases hcol : m.board.columns[m.focused + 1]? with
          | none => rw [hcol] at hstep; exact absurd hstep (by simp)
          | some rightCol =>
              rw [hcol] at hstep
              have e := Option.some.inj hstep
              rw [Prod.mk.injEq] at e
              exact e.1 ▸ e.2 ▸ mapsAgree_move_post m s _ _ h
    case isFalse => exact stay (Option.some.inj hstep)

/-- Fold of `handleNormal` over a keystroke sequence where every
persistence call succeeds (the event loop, restricted to Normal mode). -/
def applyKeys (adapter : ColumnUI → ColumnUI) (ks : List Key)
    (m : Model) (s : TaskStore) : Option (Model × TaskStore) :=
  match ks with
  | [] => some (m, s)
  | k :: rest =>
      match handleNormal adapter k true m s with
      | none => none
      | some (m1, s1) => applyKeys adapter rest m1 s1

/-- Claim C1: for every sequence of move-left/move-right operations whose
persistence updates all succeed, the Board Projection's task-to-column
mapping equals the mapping obtained by replaying the same updates against
the persistence gateway (the store's own mapping), provided the two
agreed initially. -/
theorem C1_move_replay_refinement (adapter : ColumnUI → ColumnUI)
    (ks : List Key) (hks : ∀ k ∈ ks, k = Key.moveLeft ∨ k = Key.moveRight)
    (m : Model) (s : TaskStore) (m' : Model) (s' : TaskStore)
    (hrun : applyKeys adapter ks m s = some (m', s'))
    (h : mapsAgree m s) : mapsAgree m' s' := by
  induction ks generalizing m s with
  | nil =>
      simp only [applyKeys, Option.some.injEq, Prod.mk.injEq] at hrun
      exact hrun.1 ▸ hrun.2 ▸ h
  | cons k rest ih =>
      simp only [applyKeys] at hrun
      cases hstep : handleNormal adapter k true m s with
      | none => rw [hstep] at hrun; exact absurd hrun (by simp)
      | some p =>
          rw [hstep] at hrun
          exact ih (fun x hx => hks x (List.mem_cons_of_mem _ hx)) p.1 p.2 hrun
            (handleNormal_move_agree adapter k m s p.1 p.2
              (hks k (List.mem_cons_self _ _)) hstep h)

/-! ## Failed moves (claim C2) -/

/-- Claim C2: for every move-left or move-right operation whose
persistence update call fails, the Board Projection is untouched (so the
moved task's column identifier is exactly what it was before the
attempt), the focused column index is unchanged, a visible error is set,
and the store is unchanged. -/
theorem C2_move_failure_rolls_back (adapter : ColumnUI → ColumnUI) (k : Key)
    (m : Model) (s : TaskStore) (t : Task) (m' : Model) (s' : TaskStore)
    (hk : k = Key.moveLeft ∨ k = Key.moveRight)
    (hsel : m.getSelectedTask = some t)
    (hguard : (k = Key.moveLeft → 0 < m.focused) ∧
              (k = Key.moveRight → m.focused + 1 < m.columns.length))
    (hstep : handleNormal adapter k false m s = some (m', s')) :
    m'.board = m.board ∧ m'.focused = m.focused ∧ m'.errSet = true ∧ s' = s := by
  rcases hk with hk | hk <;> subst hk <;>
    simp only [handleNormal] at hstep
  · rw [if_pos (hguard.1 rfl), hsel] at hstep
    cases hcol : m.board.columns[m.focused - 1]? with
    | none => rw [hcol] at hstep; exact absurd hstep (by simp)
    | some leftCol =>
        rw [hcol] at hstep
        cases hcol2 : m.board.columns[m.focused]? with
        | none => rw [hcol2] at hstep; exact absurd hstep (by simp)
        | some c =>
            rw [hcol2] at hstep
            have e := Option.some.inj hstep
            rw [Prod.mk.injEq] at e
            exact ⟨by rw [← e.1], by rw [← e.1], by rw [← e.1], e.2.symm⟩
  · rw [if_pos (hguard.2 rfl), hsel] at hstep
    cases hcol : m.board.columns[m.focused + 1]? with
    | none => rw [hcol] at hstep; exact absurd hstep (by simp)
    | some rightCol =>
        rw [hcol] at hstep
        cases hcol2 : m.board.columns[m.focused]? with
        | none => rw [hcol2] at hstep; exact absurd hstep (by simp)
        | some c =>
            rw [hcol2] at hstep
            have e := Option.some.inj hstep
            rw [Prod.mk.injEq] at e
            exact ⟨by rw [← e.1], by rw [← e.1], by rw [← e.1], e.2.symm⟩

/-! ## Deletion (claim C5) -/

lemma mem_RemoveTask (b : Board) (id : Int) (u : Task)
    (hu : u ∈ (b.RemoveTask id).tasks) : u.id ≠ id := by
  simp only [Board.RemoveTask, List.mem_filter, bne_iff_ne] at hu
  exact hu.2

lemma mem_GetTasksByColumn (b : Board) (cid : Int) (u : Task)
    (hu : u ∈ b.GetTasksByColumn cid) : u ∈ b.tasks :=
  (List.mem_filter.mp hu).1

/-- Every rendering view produced by `syncColumnData`'s loop is derived
from the board, provided there are at least as many board columns as UI
columns. -/
lemma syncColsAux_items (b : Board) :
    ∀ (scs : List StatusColumn) (cus : List ColumnUI),
      cus.length ≤ scs.length → ∀ cu ∈ syncColsAux b scs cus,
        ∃ sc : StatusColumn, cu.items = b.GetTasksByColumn sc.id := by
  intro scs cus
  induction cus generalizing scs with
  | nil =>
      intro _ cu hcu
      cases scs <;> simp [syncColsAux] at hcu
  | cons cu0 cus ih =>
      intro hlen cu hcu
      cases scs with
      | nil => simp at hlen
      | cons sc scs =>
          simp only [syncColsAux, List.mem_cons] at hcu
          rcases hcu with rfl | hcu
          · exact ⟨sc, rfl⟩
          · exact ih scs (by simpa using Nat.le_of_succ_le_succ (by simpa using hlen)) cu hcu

/-- Claim C5: a delete whose persistence call succeeds removes the
selected task from the Board Projection's task collection, from every
re-derived per-column view, and from every rendering view held by the
controller after the resync. -/
theorem C5_delete_removes_everywhere (adapter : ColumnUI → ColumnUI)
    (m : Model) (s : TaskStore) (t : Task) (m' : Model) (s' : TaskStore)
    (hsel : m.getSelectedTask = some t)
    (hlen : m.columns.length ≤ m.board.columns.length)
    (hstep : handleNormal adapter Key.del true m s = some (m', s')) :
    (∀ u ∈ m'.board.tasks, u.id ≠ t.id) ∧
    (∀ cid, ∀ u ∈ m'.board.GetTasksByColumn cid, u.id ≠ t.id) ∧
    (∀ cu ∈ m'.columns, ∀ u ∈ cu.items, u.id ≠ t.id) := by
  simp only [handleNormal] at hstep
  rw [hsel] at hstep
  have e := Option.some.inj hstep
  rw [Prod.mk.injEq] at e
  have hb : m'.board = m.board.RemoveTask t.id := by rw [← e.1]; rfl
  have hc : m'.columns =
      syncColsAux (m.board.RemoveTask t.id) (m.board.RemoveTask t.id).columns
        m.columns := by rw [← e.1]; rfl
  refine ⟨?_, ?_, ?_⟩
  · intro u hu
    exact mem_RemoveTask _ _ _ (hb ▸ hu)
  · intro cid u hu
    exact mem_RemoveTask _ _ _ (mem_GetTasksByColumn _ _ _ (hb ▸ hu))
  · intro cu hcu u hu
    rw [hc] at hcu
    obtain ⟨sc, hitems⟩ := syncColsAux_items (m.board.RemoveTask t.id) _ _
      (by simpa [Board.RemoveTask] using hlen) cu hcu
    rw [hitems] at hu
    exact mem_RemoveTask _ _ _ (mem_GetTasksByColumn _ _ _ hu)

/-! ## Empty-title create submissions (claim C6) -/

/-- Claim C6: submitting the create form (`enter` in Insert mode in the
authoritative `main.go` controller, whose only edit context is creation)
with an empty title creates nothing — the model (hence the Board
Projection's task count) and the store are unchanged, and the controller
remains in Insert mode. -/
theorem C6_empty_title_create_noop (edit : String → String) (ok : Bool)
    (m : Model) (s : TaskStore)
    (htitle : m.inputTitle = "") (hmode : m.mode = Mode.Insert) :
    (handleInsert edit InsertKey.enter ok m s).1.mode = Mode.Insert ∧
    (handleInsert edit InsertKey.enter ok m s).1.board.tasks.length
      = m.board.tasks.length ∧
    (handleInsert edit InsertKey.enter ok m s).1 = m ∧
    (handleInsert edit InsertKey.enter ok m s).2 = s := by
  simp [handleInsert, htitle, hmode]

/-! ## Out-of-bounds focus on create (claim C10) -/

/-- Claim C10: a create submission while the focus index is at or beyond
the number of columns (and at least one column exists) does not fail:
the task is created and bound to the first column's identifier. -/
theorem C10_create_out_of_bounds_focus_first_column (title description : String)
    (m : Model) (s : TaskStore) (c0 : StatusColumn) (rest : List StatusColumn)
    (hcols : m.board.columns = c0 :: rest)
    (hfoc : m.board.columns.length ≤ m.focused) :
    (m.createTask true title description s).1 = false ∧
    ((m.createTask true title description s).2.2.rows.getLast?).map
        (fun t => t.statusColumnId) = some c0.id := by
  have h1 : (c0 :: rest)[m.focused]? = none := by
    rw [← hcols]
    exact List.getElem?_eq_none hfoc
  constructor
  · simp [Model.createTask, hcols, h1, TaskStore.create]
  · simp [Model.createTask, hcols, h1, TaskStore.create, List.getLast?_concat]

/-! ## Concrete fixtures

A small reachable session: the three bootstrap columns (identifiers
1, 2, 3) and one task (identifier 10) sitting in the middle column, with
the rendering views synced from the board and the store row equal to the
board's task. -/

def exCol1 : StatusColumn :=
  { id := 1, boardId := 1, name := "To Do", position := 0, color := "#ff6b6b" }

def exCol2 : StatusColumn :=
  { id := 2, boardId := 1, name := "In Progress", position := 1, color := "#4ecdc4" }

def exCol3 : StatusColumn :=
  { id := 3, boardId := 1, name := "Done", position := 2, color := "#45b7d1" }

def exTask : Task :=
  { id := 10, boardId := 1, statusColumnId := 2, title := "Buy milk",
    description := "", position := 0, priority := 1, assignee := "", tags := "" }

def exBoard : Board :=
  { id := 1, title := "My Kanban Board", description := "Default board",
    columns := [exCol1, exCol2, exCol3], tasks := [exTask] }

def exModel : Model :=
  { board := exBoard,
    columns := [⟨[], 0, false⟩, ⟨[exTask], 0, false⟩, ⟨[], 0, false⟩],
    focused := 1, mode := Mode.Normal, errSet := false,
    inputTitle := "", inputDesc := "", inputFocused := 0 }

def exStore : TaskStore := { rows := [exTask], nextId := 11 }

/-- `exTask` after a successful move into the rightmost column. -/
def exTaskMoved : Task := { exTask with statusColumnId := 3 }

/-- `exModel` after a successful move-right of `exTask`. -/
def exModelMoved : Model :=
  { exModel with
      board := { exBoard with tasks := [exTaskMoved] },
      columns := [⟨[], 0, false⟩, ⟨[], 0, false⟩, ⟨[exTaskMoved], 0, false⟩],
      focused := 2 }

def exStoreMoved : TaskStore := { rows := [exTaskMoved], nextId := 11 }

def exModelErr : Model := { exModel with errSet := true }

/-- `exModel` after a successful delete of `exTask`. -/
def exModelDeleted : Model :=
  { exModel with
      board := { exBoard with tasks := [] },
      columns := [⟨[], 0, false⟩, ⟨[], 0, false⟩, ⟨[], 0, false⟩] }

def exStoreDeleted : TaskStore := { rows := [], nextId := 11 }

/-! ## Witnesses for the hypothesis-bearing theorems above -/

/-- Witness for C1 at a concrete input: one successful move-right from
the fixture session. -/
theorem C1_move_replay_refinement_witness :
    (∀ k ∈ [Key.moveRight], k = Key.moveLeft ∨ k = Key.moveRight) ∧
    mapsAgree exModel exStore ∧
    applyKeys (fun cu => cu) [Key.moveRight] exModel exStore
      = some (exModelMoved, exStoreMoved) ∧
    mapsAgree exModelMoved exStoreMoved :=
  ⟨by decide, fun _ => rfl, rfl,
    C1_move_replay_refinement (fun cu => cu) [Key.moveRight] (by decide)
      exModel exStore exModelMoved exStoreMoved rfl (fun _ => rfl)⟩

/-- Witness for C2 at a concrete input: a failed move-left from the
fixture session. -/
theorem C2_move_failure_rolls_back_witness :
    exModel.getSelectedTask = some exTask ∧
    handleNormal (fun cu => cu) Key.moveLeft false exModel exStore
      = some (exModelErr, exStore) ∧
    (exModelErr.board = exModel.board ∧ exModelErr.focused = exModel.focused ∧
     exModelErr.errSet = true ∧ exStore = exStore) :=
  ⟨rfl, rfl,
    C2_move_failure_rolls_back (fun cu => cu) Key.moveLeft exModel exStore
      exTask exModelErr exStore (Or.inl rfl) rfl
      ⟨fun _ => by decide, fun hk => Key.noConfusion hk⟩ rfl⟩

/-- Witness for C5 at a concrete input: a successful delete from the
fixture session. -/
theorem C5_delete_removes_everywhere_witness :
    exModel.getSelectedTask = some exTask ∧
    exModel.columns.length ≤ exModel.board.columns.length ∧
    handleNormal (fun cu => cu) Key.del true exModel exStore
      = some (exModelDeleted, exStoreDeleted) ∧
    ((∀ u ∈ exModelDeleted.board.tasks, u.id ≠ exTask.id) ∧
     (∀ cid, ∀ u ∈ exModelDeleted.board.GetTasksByColumn cid, u.id ≠ exTask.id) ∧
     (∀ cu ∈ exModelDeleted.columns, ∀ u ∈ cu.items, u.id ≠ exTask.id)) :=
  ⟨rfl, by decide, rfl,
    C5_delete_removes_everywhere (fun cu => cu) exModel exStore exTask
      exModelDeleted exStoreDeleted rfl (by decide) rfl⟩

def exModelInsertEmpty : Model := { exModel with mode := Mode.Insert }

/-- Witness for C6 at a concrete input: an `enter` with an empty title in
Insert mode. -/
theorem C6_empty_title_create_noop_witness :
    exModelInsertEmpty.inputTitle = "" ∧
    exModelInsertEmpty.mode = Mode.Insert ∧
    ((handleInsert id InsertKey.enter true exModelInsertEmpty exStore).1.mode
        = Mode.Insert ∧
     (handleInsert id InsertKey.enter true exModelInsertEmpty exStore).1.board.tasks.length
        = exModelInsertEmpty.board.tasks.length ∧
     (handleInsert id InsertKey.enter true exModelInsertEmpty exStore).1
        = exModelInsertEmpty ∧
     (handleInsert id InsertKey.enter true exModelInsertEmpty exStore).2 = exStore) :=
  ⟨rfl, rfl,
    C6_empty_title_create_noop id true exModelInsertEmpty exStore rfl rfl⟩

def exModelFocusFar : Model := { exModel with focused := 5 }

/-- Witness for C10 at a concrete input: a create submission with the
focus index (5) beyond the three columns. -/
theorem C10_create_out_of_bounds_focus_first_column_witness :
    exModelFocusFar.board.columns = exCol1 :: [exCol2, exCol3] ∧
    exModelFocusFar.board.columns.length ≤ exModelFocusFar.focused ∧
    ((exModelFocusFar.createTask true "t" "d" exStore).1 = false ∧
     ((exModelFocusFar.createTask true "t" "d" exStore).2.2.rows.getLast?).map
        (fun t => t.statusColumnId) = some exCol1.id) :=
  ⟨rfl, by decide,
    C10_create_out_of_bounds_focus_first_column "t" "d" exModelFocusFar exStore
      exCol1 [exCol2, exCol3] rfl (by decide)⟩

/-! ## The move-left focus defect (claims C3 and C4) -/

/-- Claim C3 (code divergence): in the authoritative `main.go` handler, a
successful move-left from focus index 1 leaves the focus at 2 — the
handler INCREMENTS the focus index (`m.focused++`) instead of
decrementing it, so focus does not follow the moved task.  (The spec's
design notes flag exactly this variant as a copy-paste defect.) -/
theorem C3_moveLeft_focus_increments :
    (handleNormal (fun cu => cu) Key.moveLeft true exModel exStore).map
        (fun p => p.1.focused) = some 2 ∧
    exModel.focused = 1 :=
  ⟨rfl, rfl⟩

/-- Claim C4 (code divergence): a successful move-left performed at the
rightmost of the three columns (focus index 2) pushes the focus index to
3, outside the valid range [0, 2] — the `<` handler's unguarded
`m.focused++` breaks the clamping invariant. -/
theorem C4_focus_leaves_range :
    (handleNormal (fun cu => cu) Key.moveLeft true exModelMoved exStoreMoved).map
        (fun p => p.1.focused) = some 3 ∧
    exModelMoved.columns.length = 3 ∧
    exModelMoved.focused = 2 :=
  ⟨rfl, rfl, rfl⟩

/-! ## Bootstrap divergence (claim C9) -/

def emptyAppDB : AppDB :=
  { boardRows := [], colRows := [], taskRows := [], nextBoardId := 1,
    nextColId := 1 }

/-- Claim C9 (code divergence): starting from an empty store, `main.go`'s
`loadBoard` creates the default board and writes the three default
columns ("To Do"/"In Progress"/"Done" at positions 0, 1, 2) into the
store, but the in-memory session board it installs carries NO columns —
`board.Columns` is never populated on the bootstrap path. -/
theorem C9_bootstrap_columns_not_loaded :
    (loadBoard emptyAppDB).1.columns = [] ∧
    ((loadBoard emptyAppDB).2.colRows.map (fun c => (c.name, c.position))) =
      [("To Do", 0), ("In Progress", 1), ("Done", 2)] :=
  ⟨rfl, rfl⟩

/-! ## Edit submissions in the `part_000` variant (claims C7 and C8) -/

/-- The fixture session in the editing variant's model, mid-edit of
`exTask` (`taskId = 10`, list index 0). -/
def exPModel : PartZero.PModel :=
  { board := exBoard,
    columns := [⟨[], 0, false⟩, ⟨[exTask], 0, false⟩, ⟨[], 0, false⟩],
    focused := 1, mode := Mode.Insert, errSet := false,
    inputTitle := "Buy oat milk", inputDesc := "from the shop",
    inputFocused := 0, ipTaskId := 10, ipListIndex := 0 }

/-- Claim C7 is false on the code: at this concrete edit submission whose
persistence update fails, the controller sets the error flag but stays in
Insert mode — it does not return to Normal mode as the claim states (the
`mode = Normal` assignment sits in the no-error branch only). -/
theorem C7_counterexample_stays_in_Insert :
    (PartZero.handleInsertP (fun f => f) InsertKey.enter false exPModel exStore).map
        (fun p => (p.1.mode, p.1.errSet)) = some (Mode.Insert, true) ∧
    Mode.Insert ≠ Mode.Normal :=
  ⟨rfl, by decide⟩

/-- Claim C7 (amended): for every confirm submission in Insert mode with
edit context editing (`taskId ≠ -1`, a task selected) whose persistence
update call fails, the controller surfaces the error and REMAINS in
Insert mode, leaving the board and the store untouched. -/
theorem C7_amended_edit_failure_stays_in_Insert (edit : String → String)
    (m : PartZero.PModel) (s : TaskStore) (t : Task)
    (hsel : m.getSelectedTask = some t) (hid : m.ipTaskId ≠ -1)
    (hmode : m.mode = Mode.Insert)
    (hcol : (m.board.columns[m.focused]?).isSome)
    (m' : PartZero.PModel) (s' : TaskStore)
    (hstep : PartZero.handleInsertP edit InsertKey.enter false m s
      = some (m', s')) :
    m'.errSet = true ∧ m'.mode = Mode.Insert ∧ m'.board = m.board ∧ s' = s := by
  obtain ⟨c, hc⟩ := Option.isSome_iff_exists.mp hcol
  simp only [PartZero.handleInsertP] at hstep
  rw [if_pos hid] at hstep
  simp only [PartZero.PModel.updateTask] at hstep
  rw [hsel, hc] at hstep
  have e := Option.some.inj hstep
  rw [Prod.mk.injEq] at e
  exact ⟨by rw [← e.1], by rw [← e.1]; exact hmode, by rw [← e.1], e.2.symm⟩

/-- Witness for the amended C7 at a concrete input: the fixture edit
submission with a failing update. -/
theorem C7_amended_edit_failure_stays_in_Insert_witness :
    exPModel.getSelectedTask = some exTask ∧
    exPModel.ipTaskId ≠ -1 ∧
    exPModel.mode = Mode.Insert ∧
    (exPModel.board.columns[exPModel.focused]?).isSome ∧
    PartZero.handleInsertP (fun f => f) InsertKey.enter false exPModel exStore
      = some ({ exPModel with errSet := true }, exStore) ∧
    (({ exPModel with errSet := true } : PartZero.PModel).errSet = true ∧
     ({ exPModel with errSet := true } : PartZero.PModel).mode = Mode.Insert ∧
     ({ exPModel with errSet := true } : PartZero.PModel).board = exPModel.board ∧
     exStore = exStore) :=
  ⟨rfl, by decide, rfl, rfl, rfl,
    C7_amended_edit_failure_stays_in_Insert (fun f => f) exPModel exStore exTask
      rfl (by decide) rfl rfl { exPModel with errSet := true } exStore rfl⟩

/-- Claim C8: a successful edit submission's persistence payload carries
the selected task's own column identifier (and identifier, position,
priority, board, assignee, tags — only title and description are
overwritten); the updated rendering item is that same payload and the
store's task-to-column mapping keeps the selected task's column. -/
theorem C8_edit_preserves_column (m : PartZero.PModel) (s : TaskStore)
    (t : Task) (cu : ColumnUI) (title description : String)
    (hcu : m.columns[m.focused]? = some cu)
    (hsel : m.getSelectedTask = some t)
    (h0 : 0 ≤ m.ipListIndex) (h1 : m.ipListIndex.toNat < cu.items.length) :
    m.updateTask true title description s = some (false,
      { m with
          columns := m.columns.set m.focused
                       ({ cu with
                           items := cu.items.set m.ipListIndex.toNat
                                      ({ t with title := title,
                                                description := description }) }),
          ipListIndex := -1 },
      { s with rows := TaskRepository.Update s.rows
                         ({ t with title := title,
                                   description := description }) }) ∧
    ({ t with title := title, description := description }).statusColumnId
      = t.statusColumnId ∧
    ({ t with title := title, description := description }).id = t.id ∧
    ({ t with title := title, description := description }).boardId = t.boardId ∧
    ({ t with title := title, description := description }).position = t.position ∧
    ({ t with title := title, description := description }).priority = t.priority ∧
    ((m.columns.set m.focused
        ({ cu with
            items := cu.items.set m.ipListIndex.toNat
                       ({ t with title := title,
                                 description := description }) }))[m.focused]?).map
        (fun cu2 => cu2.items[m.ipListIndex.toNat]?)
      = some (some { t with title := title, description := description }) ∧
    (∀ tid, taskColumnMap (TaskRepository.Update s.rows
        ({ t with title := title, description := description })) tid =
      if tid = t.id then
        (taskColumnMap s.rows tid).map (fun _ => t.statusColumnId)
      else taskColumnMap s.rows tid) := by
  have hflt : m.focused < m.columns.length := by
    by_contra hge
    rw [List.getElem?_eq_none (Nat.le_of_not_lt hge)] at hcu
    exact Option.noConfusion hcu
  have hset : PartZero.setItemUI cu m.ipListIndex
      { t with title := title, description := description } =
      some ({ cu with
                items := cu.items.set m.ipListIndex.toNat
                           ({ t with title := title,
                                     description := description }) }) := by
    simp [PartZero.setItemUI, h0, h1]
  refine ⟨?_, rfl, rfl, rfl, rfl, rfl, ?_, ?_⟩
  · simp only [PartZero.PModel.updateTask, hsel, hcu, hset]
  · rw [List.getElem?_set_eq_of_lt _ hflt]
    simp only [Option.map_some']
    rw [List.getElem?_set_eq_of_lt _ h1]
  · exact fun tid => taskColumnMap_update_store s.rows _ tid

/-- Witness for C8 at a concrete input: the fixture edit submission with
a succeeding update. -/
theorem C8_edit_preserves_column_witness :
    exPModel.columns[exPModel.focused]? = some ⟨[exTask], 0, false⟩ ∧
    exPModel.getSelectedTask = some exTask ∧
    0 ≤ exPModel.ipListIndex ∧
    exPModel.ipListIndex.toNat < ([exTask] : List Task).length ∧
    ({ exTask with title := "T2", description := "D2" }).statusColumnId
      = exTask.statusColumnId ∧
    exPModel.updateTask true "T2" "D2" exStore = some (false,
      { exPModel with
          columns := exPModel.columns.set exPModel.focused
            ⟨[{ exTask with title := "T2", description := "D2" }], 0, false⟩,
          ipListIndex := -1 },
      { exStore with
          rows := TaskRepository.Update exStore.rows
                    ({ exTask with title := "T2", description := "D2" }) }) :=
  ⟨rfl, rfl, by decide, by decide,
    (C8_edit_preserves_column exPModel exStore exTask ⟨[exTask], 0, false⟩
      "T2" "D2" rfl rfl (by decide) (by decide)).2.1,
    (C8_edit_preserves_column exPModel exStore exTask ⟨[exTask], 0, false⟩
      "T2" "D2" rfl rfl (by decide) (by decide)).1⟩

end Kancli
